import Mathlib

/-!
Shallow embedding of the quiz session core of `fly-acgn-quiz` (the React
application in `src/unnamed/part_000`, first document): the basket manager
(`toggleBasket`, `perIPCounts`), the session phase handlers (`startQuiz`,
`revealReferences`, `finishAndShowScore`, `resetAll`, `setAnswer`) together
with the availability guards the JSX places on each handler's control, and
the scoring function (`scoreSummary`).  JavaScript objects used as finite
maps are embedded as association lists with first-match lookup; a thrown
TypeError is embedded as `Option.none`.
-/

namespace Quiz

/-- Difficulty levels; the admin form only ever produces `a`, `b`, `c`, `s`. -/
inductive Level
  | a
  | b
  | c
  | s
deriving DecidableEq, Repr

/-- Question kinds, from the `TYPE_LABELS` keys. -/
inductive QType
  | mcq
  | fill
  | short
  | reading
deriving DecidableEq, Repr

/-- LEVEL_POINTS = \x7b a: 3, b: 2, c: 1, s: 5 \x7d. -/
def LEVEL_POINTS : Level → Nat
  | .a => 3
  | .b => 2
  | .c => 1
  | .s => 5

/-- A question record as produced by the admin form / demo seed. -/
structure Question where
  id : String
  ip : String
  type : QType
  level : Level
  title : String := ""
  options : List String := []
  correctIndex : Nat := 0
  reference : String := ""
deriving DecidableEq, Repr

/-- An answer record; `none` fields embed absent JS object fields
(`choiceIndex` set by `MCQBlock.choose`, `manualScore` by `ManualBlock`). -/
structure Answer where
  choiceIndex : Option Nat := none
  manualScore : Option Nat := none
deriving DecidableEq, Repr

/-- First-match lookup in an association list (JS object property read). -/
def lookupKey {α β : Type} [DecidableEq α] : List (α × β) → α → Option β
  | [], _ => none
  | (k, v) :: rest, k2 => if k = k2 then some v else lookupKey rest k2

/-- Lookup with default 0, the `m[k] || 0` idiom. -/
def lookupD {α : Type} [DecidableEq α] (m : List (α × Nat)) (k : α) : Nat :=
  (lookupKey m k).getD 0

/-- The `m[k] = (m[k] || 0) + v` idiom: increment in place, or append the key. -/
def bumpKey {α : Type} [DecidableEq α] : List (α × Nat) → α → Nat → List (α × Nat)
  | [], k, v => [(k, v)]
  | (k2, v2) :: rest, k, v =>
      if k2 = k then (k2, v2 + v) :: rest else (k2, v2) :: bumpKey rest k v

/-- The `\x7b ...prev, [k]: v \x7d` idiom: overwrite the key, or append it. -/
def setKey {α β : Type} [DecidableEq α] : List (α × β) → α → β → List (α × β)
  | [], k, v => [(k, v)]
  | (k2, v2) :: rest, k, v =>
      if k2 = k then (k, v) :: rest else (k2, v2) :: setKey rest k v

/-- Sum of the values of a map, for relating totals to tallies. -/
def sumVals {α : Type} (m : List (α × Nat)) : Nat :=
  (m.map (fun e => e.2)).sum

/-- questions.find((x) => x.id === id). -/
def findQ : List Question → String → Option Question
  | [], _ => none
  | q :: rest, id => if q.id = id then some q else findQ rest id

/-- Topic of a basket member: the `ip` of the first question with that id. -/
def topicOf (questions : List Question) (id : String) : Option String :=
  (findQ questions id).map (fun q => q.ip)

/-- Number of basket members whose topic is `T`. -/
def countTopic (questions : List Question) : List String → String → Nat
  | [], _ => 0
  | id :: rest, T =>
      (if topicOf questions id = some T then 1 else 0) + countTopic questions rest T

/-- One iteration of the `perIPCounts` loop: skip missing ids, else count. -/
def perIPStep (questions : List Question) (m : List (String × Nat)) (id : String) :
    List (String × Nat) :=
  match findQ questions id with
  | none => m
  | some q => bumpKey m q.ip 1

/-- perIPCounts: per-IP tallies derived from the basket, skipping ids whose
question is missing (`if (!q) continue`). -/
def perIPCounts (questions : List Question) (basket : List String) :
    List (String × Nat) :=
  basket.foldl (perIPStep questions) []

/-- toggleBasket.  `none` embeds the TypeError thrown by `q.ip` when the id is
absent from both the basket and the question list (no existence guard exists
in the source); `some (basket2, msg)` is a normal return with the new basket
and the `alert` message, if any. -/
def toggleBasket (questions : List Question) (basket : List String) (id : String) :
    Option (List String × Option String) :=
  if id ∈ basket then
    some (basket.filter (fun x => decide (x ≠ id)), none)
  else
    match findQ questions id with
    | none => none
    | some q =>
      if basket.length < 5 then
        if lookupD (perIPCounts questions basket) q.ip < 2 ∨ id ∈ basket then
          some (basket ++ [id], none)
        else
          some (basket, some "该 IP 已选 2 题上限")
      else
        some (basket, some "已达总数上限（最多 5 题）")

/-- Basket after a toggle call: a throw leaves the React state untouched. -/
def applyToggle (questions : List Question) (basket : List String) (id : String) :
    List String :=
  match toggleBasket questions basket id with
  | none => basket
  | some (basket2, _) => basket2

/-- Basket reached from the empty basket by a sequence of toggle calls. -/
def runToggles (questions : List Question) (ids : List String) : List String :=
  ids.foldl (applyToggle questions) []

/-- Session phases, the `phase` state: pick | running | confirm | finished. -/
inductive Phase
  | pick
  | running
  | confirm
  | finished
deriving DecidableEq, Repr

/-- Top-level tabs: welcome | quiz | admin. -/
inductive Tab
  | welcome
  | quiz
  | admin
deriving DecidableEq, Repr

/-- The session state held at the application root. -/
structure AppState where
  tab : Tab := .welcome
  phase : Phase := .pick
  basket : List String := []
  answers : List (String × Answer) := []
  selectedIP : String := ""
deriving DecidableEq, Repr

/-- startQuiz: alert and return unchanged when the basket is empty, else
enter the running phase and switch to the quiz tab. -/
def startQuiz (s : AppState) : AppState × Option String :=
  if s.basket.length = 0 then
    (s, some "请先选择题目")
  else
    ({ s with phase := .running, tab := .quiz }, none)

/-- resetAll: clear basket and answers, return to pick, welcome tab, no IP. -/
def resetAll (_s : AppState) : AppState :=
  { basket := [], phase := .pick, answers := [], tab := .welcome, selectedIP := "" }

/-- revealReferences: setPhase("confirm"). -/
def revealReferences (s : AppState) : AppState :=
  { s with phase := .confirm }

/-- finishAndShowScore: setPhase("finished"). -/
def finishAndShowScore (s : AppState) : AppState :=
  { s with phase := .finished }

/-- A partial answer payload as passed to `setAnswer`; `none` fields are
absent from the JS object literal. -/
structure AnswerPatch where
  choiceIndex : Option Nat := none
  manualScore : Option Nat := none
deriving DecidableEq, Repr

/-- Shallow merge `\x7b ...(prev[qid] || \x7b\x7d), ...data \x7d`: present
patch fields override, absent ones keep the previous value. -/
def mergeAnswer (old : Answer) (p : AnswerPatch) : Answer :=
  { choiceIndex := match p.choiceIndex with | some i => some i | none => old.choiceIndex
    manualScore := match p.manualScore with | some n => some n | none => old.manualScore }

/-- setAnswer: merge the payload into the record for `qid`. -/
def setAnswer (s : AppState) (qid : String) (p : AnswerPatch) : AppState :=
  let old := (lookupKey s.answers qid).getD {}
  { s with answers := setKey s.answers qid (mergeAnswer old p) }

/-- The user-invocable operations of the session core. -/
inductive Op
  | start
  | reveal
  | finish
  | reset
  | toggle (id : String)
  | record (qid : String) (p : AnswerPatch)
deriving DecidableEq, Repr

/-- One user action, including the availability guard the JSX puts on each
control: the start button is disabled unless the basket is non-empty and the
phase is pick; the reveal button is rendered only in running; the finish
button only in confirm; the toggle button only in pick; answer inputs
(MCQBlock / ManualBlock) only outside pick; reset is always available. -/
def uiStep (questions : List Question) (s : AppState) : Op → AppState
  | .start =>
      if s.basket.length = 0 ∨ s.phase ≠ .pick then s else (startQuiz s).1
  | .reveal =>
      if s.phase = .running then revealReferences s else s
  | .finish =>
      if s.phase = .confirm then finishAndShowScore s else s
  | .reset => resetAll s
  | .toggle id =>
      if s.phase = .pick then { s with basket := applyToggle questions s.basket id } else s
  | .record qid p =>
      if s.phase = .pick then s else setAnswer s qid p

/-- Points gained by one basket question given its answer record. -/
def gainedFor (q : Question) (ans : Option Answer) : Nat :=
  match q.type with
  | .mcq =>
      match ans with
      | some a => if a.choiceIndex = some q.correctIndex then LEVEL_POINTS q.level else 0
      | none => 0
  | _ =>
      match ans with
      | some a => a.manualScore.getD 0
      | none => 0

/-- The score summary record \x7b total, byIP, byLevel \x7d. -/
structure Summary where
  total : Nat
  byIP : List (String × Nat)
  byLevel : List (Level × Nat)
deriving DecidableEq, Repr

/-- Initial accumulator: total 0, empty byIP, byLevel with all four levels. -/
def scoreInit : Summary :=
  { total := 0
    byIP := []
    byLevel := [(Level.a, 0), (Level.b, 0), (Level.c, 0), (Level.s, 0)] }

/-- One iteration of the scoring loop: skip missing questions, else add the
gained points to total, byIP and byLevel. -/
def scoreStep (questions : List Question) (answers : List (String × Answer))
    (s : Summary) (id : String) : Summary :=
  match findQ questions id with
  | none => s
  | some q =>
    let gained := gainedFor q (lookupKey answers id)
    { total := s.total + gained
      byIP := bumpKey s.byIP q.ip gained
      byLevel := bumpKey s.byLevel q.level gained }

/-- scoreSummary: pure function of questions, answers and basket. -/
def scoreSummary (questions : List Question) (answers : List (String × Answer))
    (basket : List String) : Summary :=
  basket.foldl (scoreStep questions answers) scoreInit

/-- Set of correct indices a question of the embedded data model carries:
always the singleton of its one stored `correctIndex`. -/
def correctIdxSet (q : Question) : Finset Nat :=
  {q.correctIndex}

/-- Set of chosen indices an answer record carries: the singleton of
`choiceIndex` when set, empty otherwise. -/
def chosenSet (ans : Option Answer) : Finset Nat :=
  match ans with
  | some a =>
      match a.choiceIndex with
      | some i => {i}
      | none => ∅
  | none => ∅

/-- Modelled from the spec: the exact-match multiple-choice award rule,
`awarded = points IF chosen == correct (as sets, exact match) ELSE 0`. -/
def mcqAwardSpec (correct chosen : Finset Nat) (points : Nat) : Nat :=
  if chosen = correct then points else 0

/-- Sample multiple-choice question, level b (2 points), correct option 0. -/
def qMcqB : Question :=
  { id := "q1", ip := "X", type := .mcq, level := .b,
    options := ["o1", "o2", "o3"], correctIndex := 0 }

/-- Sample short-answer question, level s (5 points). -/
def qShortS : Question :=
  { id := "q2", ip := "Y", type := .short, level := .s }

/-- Sample state: pick phase with a one-question basket. -/
def sPick : AppState :=
  { tab := .welcome, phase := .pick, basket := ["q1"], answers := [], selectedIP := "" }

/-- Sample state: pick phase with an empty basket. -/
def sEmpty : AppState :=
  { tab := .welcome, phase := .pick, basket := [], answers := [], selectedIP := "" }

/-!
Helper lemmas about the association-list idioms and the derived counts.
-/

theorem lookupD_bumpKey {α : Type} [DecidableEq α] (m : List (α × Nat)) (k T : α) (v : Nat) :
    lookupD (bumpKey m k v) T = lookupD m T + (if k = T then v else 0) := by
  induction m with
  | nil =>
    by_cases h : k = T <;> simp [bumpKey, lookupD, lookupKey, h]
  | cons e rest ih =>
    obtain ⟨k2, v2⟩ := e
    by_cases h1 : k2 = k
    · subst h1
      by_cases h2 : k2 = T <;> simp [bumpKey, lookupD, lookupKey, h2]
    · by_cases h2 : k2 = T
      · subst h2
        have hk : ¬ k = k2 := fun hk => h1 hk.symm
        simp [bumpKey, lookupD, lookupKey, h1, hk]
      · simp only [bumpKey, h1, if_false, lookupD, lookupKey, h2]
        exact ih

theorem lookupKey_bumpKey_isSome {α : Type} [DecidableEq α] (m : List (α × Nat))
    (k k2 : α) (v : Nat) (h : (lookupKey m k2).isSome = true) :
    (lookupKey (bumpKey m k v) k2).isSome = true := by
  induction m with
  | nil => simp [lookupKey] at h
  | cons e rest ih =>
    obtain ⟨k3, v3⟩ := e
    by_cases h3 : k3 = k
    · subst h3
      by_cases h4 : k3 = k2
      · simp [bumpKey, lookupKey, h4]
      · simp only [lookupKey, h4, if_false] at h
        simp only [bumpKey, if_pos rfl, lookupKey, h4, if_false]
        exact h
    · by_cases h4 : k3 = k2
      · subst h4
        simp [bumpKey, lookupKey, h3]
      · simp only [lookupKey, h4, if_false] at h
        simp only [bumpKey, h3, if_false, lookupKey, h4]
        exact ih h

theorem sumVals_bumpKey {α : Type} [DecidableEq α] (m : List (α × Nat)) (k : α) (v : Nat) :
    sumVals (bumpKey m k v) = sumVals m + v := by
  induction m with
  | nil => simp [bumpKey, sumVals]
  | cons e rest ih =>
    obtain ⟨k2, v2⟩ := e
    by_cases h : k2 = k
    · simp [bumpKey, sumVals, h]
      omega
    · simp [bumpKey, sumVals, h] at ih ⊢
      omega

theorem countTopic_append (questions : List Question) (b1 b2 : List String) (T : String) :
    countTopic questions (b1 ++ b2) T =
      countTopic questions b1 T + countTopic questions b2 T := by
  induction b1 with
  | nil => simp [countTopic]
  | cons id rest ih =>
    rw [List.cons_append]
    show (if topicOf questions id = some T then 1 else 0) + countTopic questions (rest ++ b2) T =
      (if topicOf questions id = some T then 1 else 0) + countTopic questions rest T +
        countTopic questions b2 T
    rw [ih]
    omega

theorem countTopic_filter_le (questions : List Question) (b : List String)
    (p : String → Bool) (T : String) :
    countTopic questions (b.filter p) T ≤ countTopic questions b T := by
  induction b with
  | nil => simp [countTopic]
  | cons id rest ih =>
    by_cases h : p id
    · simp only [List.filter_cons, h, if_true, countTopic]
      omega
    · simp only [List.filter_cons, h, Bool.false_eq_true, if_false, countTopic]
      omega

theorem perIP_foldl (questions : List Question) (b : List String) :
    ∀ (m : List (String × Nat)) (T : String),
      lookupD (b.foldl (perIPStep questions) m) T = lookupD m T + countTopic questions b T := by
  induction b with
  | nil => intro m T; simp [countTopic]
  | cons id rest ih =>
    intro m T
    simp only [List.foldl_cons, countTopic]
    rw [ih]
    cases hf : findQ questions id with
    | none => simp [perIPStep, hf, topicOf]
    | some q =>
      simp only [perIPStep, hf, topicOf, Option.map_some', lookupD_bumpKey,
        Option.some.injEq]
      omega

theorem perIP_eq_countTopic (questions : List Question) (b : List String) (T : String) :
    lookupD (perIPCounts questions b) T = countTopic questions b T := by
  have h := perIP_foldl questions b [] T
  simpa [perIPCounts, lookupD, lookupKey] using h

theorem applyToggle_cases (questions : List Question) (b : List String) (id : String) :
    applyToggle questions b id = b.filter (fun x => decide (x ≠ id)) ∨
    applyToggle questions b id = b ∨
    (applyToggle questions b id = b ++ [id] ∧ id ∉ b ∧ b.length < 5 ∧
      ∃ q, findQ questions id = some q ∧
        lookupD (perIPCounts questions b) q.ip < 2) := by
  unfold applyToggle toggleBasket
  by_cases hin : id ∈ b
  · simp [hin]
  · simp only [hin, if_false]
    cases hf : findQ questions id with
    | none => right; left; rfl
    | some q =>
      by_cases hlen : b.length < 5
      · by_cases hip : lookupD (perIPCounts questions b) q.ip < 2
        · right; right
          refine ⟨?_, fun hF => hF, hlen, q, rfl, hip⟩
          simp [hlen, hip]
        · right; left
          simp [hlen, hip]
      · right; left
        simp [hlen]

theorem applyToggle_inv (questions : List Question) (b : List String) (id : String)
    (h5 : b.length ≤ 5) (h2 : ∀ T, countTopic questions b T ≤ 2) :
    (applyToggle questions b id).length ≤ 5 ∧
      ∀ T, countTopic questions (applyToggle questions b id) T ≤ 2 := by
  rcases applyToggle_cases questions b id with hc | hc | ⟨hc, hin, hlen, q, hf, hip⟩
  · rw [hc]
    refine ⟨le_trans (List.length_filter_le _ _) h5, fun T => ?_⟩
    exact le_trans (countTopic_filter_le questions b _ T) (h2 T)
  · rw [hc]
    exact ⟨h5, h2⟩
  · rw [hc]
    constructor
    · rw [List.length_append]
      simp only [List.length_singleton]
      omega
    · intro T
      rw [countTopic_append]
      have hcnt : countTopic questions b q.ip < 2 := by
        rwa [perIP_eq_countTopic] at hip
      by_cases hT : q.ip = T
      · subst hT
        simp [countTopic, topicOf, hf]
        omega
      · have : topicOf questions id ≠ some T := by
          simp [topicOf, hf, hT]
        simp only [countTopic, this, if_false]
        have := h2 T
        omega

theorem runToggles_inv_aux (questions : List Question) (ids : List String) :
    ∀ b : List String, b.length ≤ 5 → (∀ T, countTopic questions b T ≤ 2) →
      (ids.foldl (applyToggle questions) b).length ≤ 5 ∧
        ∀ T, countTopic questions (ids.foldl (applyToggle questions) b) T ≤ 2 := by
  induction ids with
  | nil => intro b h5 h2; exact ⟨h5, h2⟩
  | cons id rest ih =>
    intro b h5 h2
    have h := applyToggle_inv questions b id h5 h2
    simpa using ih _ h.1 h.2

/-- C2: after any sequence of toggle calls starting from the empty basket,
the basket holds at most 5 ids and, for every topic `T`, at most 2 of its
members have topic `T` — whether each individual add succeeded, was rejected
by a cap, or threw on a missing question. -/
theorem C2_cap_invariant_holds (questions : List Question) (ids : List String) :
    (runToggles questions ids).length ≤ 5 ∧
      ∀ T, countTopic questions (runToggles questions ids) T ≤ 2 := by
  have h := runToggles_inv_aux questions ids [] (by simp) (fun T => Nat.zero_le _)
  simpa [runToggles] using h

/-- C3 counterexample: toggling an id that is neither in the basket nor in
the question collection does not return unchanged without error — it throws
(embedded as `none`) when reading `q.ip` of the missing question. -/
theorem C3_counterexample : toggleBasket [] [] "x" = none := by
  simp [toggleBasket, findQ]

/-- C3 amended: for an id absent from the basket whose question is absent
from the collection, `toggleBasket` throws a TypeError (there is no
existence guard); the throw happens before any mutation, so the basket
state is unchanged. -/
theorem C3_missing_toggle_throws (questions : List Question) (basket : List String)
    (id : String) (h1 : id ∉ basket) (h2 : findQ questions id = none) :
    toggleBasket questions basket id = none ∧
      applyToggle questions basket id = basket := by
  have ht : toggleBasket questions basket id = none := by
    simp [toggleBasket, h1, h2]
  exact ⟨ht, by simp [applyToggle, ht]⟩

/-- Concrete instance of the amended C3 statement. -/
theorem C3_missing_toggle_throws_witness :
    toggleBasket [] ["y"] "x" = none ∧ applyToggle [] ["y"] "x" = ["y"] :=
  C3_missing_toggle_throws [] ["y"] "x" (by simp) rfl

/-- C5: `startQuiz` on an empty basket fails with the user-facing message and
mutates nothing (the returned state is the input state); on a non-empty
basket in the pick phase it succeeds with no message and the phase becomes
running, with basket and answers untouched. -/
theorem C5_start_validation (s : AppState) :
    (s.basket = [] → startQuiz s = (s, some "请先选择题目")) ∧
    (s.basket ≠ [] → s.phase = .pick →
      (startQuiz s).2 = none ∧ (startQuiz s).1.phase = .running ∧
        (startQuiz s).1.basket = s.basket ∧ (startQuiz s).1.answers = s.answers) := by
  constructor
  · intro h
    simp [startQuiz, h]
  · intro h _
    simp [startQuiz, List.length_eq_zero, h]

/-- Concrete instance of C5: empty basket fails, non-empty pick state runs. -/
theorem C5_start_validation_witness :
    startQuiz sEmpty = (sEmpty, some "请先选择题目") ∧
      (startQuiz sPick).2 = none ∧ (startQuiz sPick).1.phase = .running :=
  ⟨(C5_start_validation sEmpty).1 rfl,
    ((C5_start_validation sPick).2 (by simp [sPick]) rfl).1,
    ((C5_start_validation sPick).2 (by simp [sPick]) rfl).2.1⟩

/-- C8: `resetAll`, from any state, empties the basket, clears all answer
records and returns the phase to pick. -/
theorem C8_reset_clears (s : AppState) :
    (resetAll s).basket = [] ∧ (resetAll s).answers = [] ∧
      (resetAll s).phase = .pick := by
  simp [resetAll]

/-- C1 counterexample: the claim speaks of a multiple-choice question with
`correctIndices = \x7b0,2\x7d`, but every question of the program's data
model stores exactly one correct index, so its set of correct indices is
always a singleton — no such question exists. -/
theorem C1_counterexample :
    ¬ ∃ q : Question, correctIdxSet q = ({0, 2} : Finset Nat) := by
  rintro ⟨q, h⟩
  have hc : ({q.correctIndex} : Finset Nat).card = ({0, 2} : Finset Nat).card := by
    rw [correctIdxSet] at h
    rw [h]
  simp at hc

/-- C1 amended: for every multiple-choice question, the scoring function
awards the full point value exactly when the (at most singleton) set of
chosen indices equals the singleton set of the stored correct index — the
exact-match rule of the spec instantiated at singleton correct sets; an
empty or different chosen set awards 0.  A two-element correct set such as
\x7b0,2\x7d is unrepresentable. -/
theorem C1_mcq_exact_match (q : Question) (ans : Option Answer) (h : q.type = QType.mcq) :
    gainedFor q ans =
      mcqAwardSpec (correctIdxSet q) (chosenSet ans) (LEVEL_POINTS q.level) := by
  obtain ⟨qid, qip, qty, qlvl, qtitle, qopts, qci, qref⟩ := q
  simp only at h
  subst h
  cases ans with
  | none =>
    simp [gainedFor, chosenSet, correctIdxSet, mcqAwardSpec,
      (Finset.singleton_ne_empty _).symm]
  | some a =>
    cases hc : a.choiceIndex with
    | none =>
      simp [gainedFor, hc, chosenSet, correctIdxSet, mcqAwardSpec,
        (Finset.singleton_ne_empty _).symm]
    | some i =>
      simp only [gainedFor, hc, chosenSet, correctIdxSet, mcqAwardSpec,
        Finset.singleton_inj, Option.some.injEq]

/-- Concrete instance of the amended C1 statement at a level-b question with
correct index 0 and the correct choice made. -/
theorem C1_mcq_exact_match_witness :
    qMcqB.type = QType.mcq ∧
      gainedFor qMcqB (some { choiceIndex := some 0 }) =
        mcqAwardSpec (correctIdxSet qMcqB) (chosenSet (some { choiceIndex := some 0 }))
          (LEVEL_POINTS qMcqB.level) :=
  ⟨rfl, C1_mcq_exact_match qMcqB (some { choiceIndex := some 0 }) rfl⟩

/-- C4: whenever a user operation changes the phase, it is the designated
transition out of its designated source phase: start from pick to running,
reveal from running to confirm, finish from confirm to finished, or reset
landing on pick. -/
theorem C4_phase_transitions (questions : List Question) (s : AppState) (op : Op)
    (h : (uiStep questions s op).phase ≠ s.phase) :
    (op = .start ∧ s.phase = .pick ∧ (uiStep questions s op).phase = .running) ∨
    (op = .reveal ∧ s.phase = .running ∧ (uiStep questions s op).phase = .confirm) ∨
    (op = .finish ∧ s.phase = .confirm ∧ (uiStep questions s op).phase = .finished) ∨
    (op = .reset ∧ (uiStep questions s op).phase = .pick) := by
  cases op with
  | start =>
    by_cases hg : s.basket.length = 0 ∨ s.phase ≠ .pick
    · exact absurd (by simp only [uiStep, if_pos hg]) h
    · push_neg at hg
      left
      refine ⟨rfl, hg.2, ?_⟩
      simp [uiStep, startQuiz, hg.1, hg.2]
  | reveal =>
    by_cases hg : s.phase = .running
    · right; left
      exact ⟨rfl, hg, by simp [uiStep, hg, revealReferences]⟩
    · exact absurd (by simp [uiStep, hg]) h
  | finish =>
    by_cases hg : s.phase = .confirm
    · right; right; left
      exact ⟨rfl, hg, by simp [uiStep, hg, finishAndShowScore]⟩
    · exact absurd (by simp [uiStep, hg]) h
  | reset =>
    right; right; right
    exact ⟨rfl, by simp [uiStep, resetAll]⟩
  | toggle id =>
    refine absurd ?_ h
    by_cases hg : s.phase = .pick <;> simp [uiStep, hg]
  | record qid p =>
    refine absurd ?_ h
    by_cases hg : s.phase = .pick <;> simp [uiStep, hg, setAnswer]

/-- Concrete instance of C4: starting from a pick state with a non-empty
basket changes the phase, and the change is the designated pick-to-running
transition. -/
theorem C4_phase_transitions_witness :
    (uiStep [] sPick Op.start).phase ≠ sPick.phase ∧
      ((Op.start = Op.start ∧ sPick.phase = .pick ∧
          (uiStep [] sPick Op.start).phase = .running) ∨
        (Op.start = Op.reveal ∧ sPick.phase = .running ∧
          (uiStep [] sPick Op.start).phase = .confirm) ∨
        (Op.start = Op.finish ∧ sPick.phase = .confirm ∧
          (uiStep [] sPick Op.start).phase = .finished) ∨
        (Op.start = Op.reset ∧ (uiStep [] sPick Op.start).phase = .pick)) :=
  ⟨by decide, C4_phase_transitions [] sPick Op.start (by decide)⟩

/-- C6: an id whose question is absent from the collection contributes
nothing to the score summary and nothing to the per-IP counts — removing it
from the basket leaves both results unchanged, and both computations are
total (the `if (!q) continue` guard, embedded as a total skip). -/
theorem C6_missing_id_skipped (questions : List Question)
    (answers : List (String × Answer)) (b1 b2 : List String) (id : String)
    (h : findQ questions id = none) :
    scoreSummary questions answers (b1 ++ id :: b2) =
        scoreSummary questions answers (b1 ++ b2) ∧
      perIPCounts questions (b1 ++ id :: b2) = perIPCounts questions (b1 ++ b2) := by
  constructor
  · simp [scoreSummary, List.foldl_append, scoreStep, h]
  · simp [perIPCounts, List.foldl_append, perIPStep, h]

/-- Concrete instance of C6 with a basket holding one dangling id. -/
theorem C6_missing_id_skipped_witness :
    scoreSummary [] [] ([] ++ "x" :: []) = scoreSummary [] [] ([] ++ []) ∧
      perIPCounts [] ([] ++ "x" :: []) = perIPCounts [] ([] ++ []) :=
  C6_missing_id_skipped [] [] [] [] "x" rfl

/-- C7: for a non-multiple-choice question, scoring awards exactly the
recorded `manualScore` when it is a number and 0 when there is no record or
the field is unset, both as the per-question gain and as the contribution to
`total` and to the question's `byLevel` entry; the computation is total. -/
theorem C7_manual_passthrough (q : Question) (ans : Option Answer)
    (answers : List (String × Answer)) (h : q.type ≠ QType.mcq)
    (ha : lookupKey answers q.id = ans) :
    gainedFor q ans = (ans.bind Answer.manualScore).getD 0 ∧
      (scoreSummary [q] answers [q.id]).total = (ans.bind Answer.manualScore).getD 0 ∧
      lookupKey (scoreSummary [q] answers [q.id]).byLevel q.level =
        some ((ans.bind Answer.manualScore).getD 0) := by
  have hg : gainedFor q ans = (ans.bind Answer.manualScore).getD 0 := by
    obtain ⟨qid, qip, qty, qlvl, qtitle, qopts, qci, qref⟩ := q
    cases qty with
    | mcq => exact absurd rfl h
    | fill => cases ans <;> rfl
    | short => cases ans <;> rfl
    | reading => cases ans <;> rfl
  refine ⟨hg, ?_, ?_⟩
  · simp [scoreSummary, scoreStep, findQ, scoreInit, ha, hg]
  · simp only [scoreSummary, List.foldl_cons, List.foldl_nil, scoreStep, findQ,
      if_pos rfl, ha, hg]
    cases hl : q.level <;> simp [scoreInit, bumpKey, lookupKey, hl, hg]

/-- Concrete instance of C7: a short-answer question at level S with
`manualScore = 3` contributes exactly 3 to the total and to `byLevel` at S. -/
theorem C7_manual_passthrough_witness :
    gainedFor qShortS (some { manualScore := some 3 }) = 3 ∧
      (scoreSummary [qShortS] [("q2", { manualScore := some 3 })] [qShortS.id]).total = 3 ∧
      lookupKey (scoreSummary [qShortS] [("q2", { manualScore := some 3 })]
          [qShortS.id]).byLevel qShortS.level = some 3 := by
  have h := C7_manual_passthrough qShortS (some { manualScore := some 3 })
    [("q2", { manualScore := some 3 })] (by decide) (by decide)
  simpa using h

theorem byLevel_isSome_init (lvl : Level) :
    (lookupKey scoreInit.byLevel lvl).isSome = true := by
  cases lvl <;> rfl

theorem byLevel_isSome_foldl (questions : List Question)
    (answers : List (String × Answer)) (b : List String) :
    ∀ s : Summary, (∀ lvl, (lookupKey s.byLevel lvl).isSome = true) →
      ∀ lvl, (lookupKey (b.foldl (scoreStep questions answers) s).byLevel lvl).isSome
        = true := by
  induction b with
  | nil => intro s hs lvl; exact hs lvl
  | cons id rest ih =>
    intro s hs lvl
    refine ih _ (fun lvl2 => ?_) lvl
    unfold scoreStep
    cases hf : findQ questions id with
    | none => exact hs lvl2
    | some q => simpa using lookupKey_bumpKey_isSome s.byLevel q.level lvl2 _ (hs lvl2)

/-- C9: for every question collection, answer map and basket, the byLevel
component of the score summary has an entry for each of the four level tags,
even when no basket question carries that level. -/
theorem C9_byLevel_entries (questions : List Question)
    (answers : List (String × Answer)) (basket : List String) (lvl : Level) :
    (lookupKey (scoreSummary questions answers basket).byLevel lvl).isSome = true :=
  byLevel_isSome_foldl questions answers basket scoreInit byLevel_isSome_init lvl

theorem score_consistent_foldl (questions : List Question)
    (answers : List (String × Answer)) (b : List String) :
    ∀ s : Summary, s.total = sumVals s.byIP → s.total = sumVals s.byLevel →
      (b.foldl (scoreStep questions answers) s).total
          = sumVals (b.foldl (scoreStep questions answers) s).byIP ∧
        (b.foldl (scoreStep questions answers) s).total
          = sumVals (b.foldl (scoreStep questions answers) s).byLevel := by
  induction b with
  | nil => intro s h1 h2; exact ⟨h1, h2⟩
  | cons id rest ih =>
    intro s h1 h2
    simp only [List.foldl_cons]
    refine ih _ ?_ ?_ <;> unfold scoreStep <;> cases hf : findQ questions id
    · exact h1
    · simp [sumVals_bumpKey, h1]
    · exact h2
    · simp [sumVals_bumpKey, h2]

/-- C10: the score summary is internally consistent — `total` equals the
sum of the byIP tallies and equals the sum of the byLevel tallies. -/
theorem C10_summary_consistent (questions : List Question)
    (answers : List (String × Answer)) (basket : List String) :
    (scoreSummary questions answers basket).total
        = sumVals (scoreSummary questions answers basket).byIP ∧
      (scoreSummary questions answers basket).total
        = sumVals (scoreSummary questions answers basket).byLevel :=
  score_consistent_foldl questions answers basket scoreInit rfl rfl

end Quiz
